import Mathlib

/-!
Verification of the `compras` shopping-list client.

The repository holds two revisions of one React component:
* `src/src/components/ShoppingList.tsx` — the single-list variant
  (one global item collection), embedded below in namespace `Single`;
* `src/unnamed/part_000` — the multi-list variant (lists of lists, items
  scoped by `list_id`), embedded below in namespace `Multi`.

Remote calls issued through the supabase client are recorded as an explicit
trace (`RemoteCall`); toast notifications as a `Toast` trace; the component's
React `useState` cells are gathered into a `State` record.  Each event
handler of the source becomes a pure function from the prior state (plus the
outcome of the awaited remote call, since `supabase-js` reports failure
through a returned `error` field) to an `OpResult` carrying the call trace,
the successor state and the emitted toasts.
-/

/-- Toast notification as produced by the `toast(...)` calls of the source:
title, description, and whether the `destructive` variant was requested. -/
structure Toast where
  title : String
  description : String
  destructive : Bool
  deriving DecidableEq

def camposObrigatoriosToast : Toast :=
  ⟨"Campos obrigatórios", "Preencha o nome e a categoria do item.", true⟩

def itemAdicionadoToast : Toast :=
  ⟨"Item adicionado", "Item adicionado à lista com sucesso!", false⟩

def erroAdicionarItemToast : Toast :=
  ⟨"Erro", "Não foi possível adicionar o item.", true⟩

def erroAtualizarItemToast : Toast :=
  ⟨"Erro", "Não foi possível atualizar o item.", true⟩

def erroCarregarItensToast : Toast :=
  ⟨"Erro", "Não foi possível carregar os itens da lista.", true⟩

def erroCarregarListasToast : Toast :=
  ⟨"Erro", "Não foi possível carregar as listas.", true⟩

def nomeObrigatorioToast : Toast :=
  ⟨"Nome obrigatório", "Digite um nome para a lista.", true⟩

def listaCriadaToast : Toast :=
  ⟨"Lista criada", "Lista criada com sucesso!", false⟩

def erroCriarListaToast : Toast :=
  ⟨"Erro", "Não foi possível criar a lista.", true⟩

def listaRemovidaToast : Toast :=
  ⟨"Lista removida", "Lista removida com sucesso!", false⟩

def erroRemoverListaToast : Toast :=
  ⟨"Erro", "Não foi possível remover a lista.", true⟩

/-- The fixed category label list (`CATEGORIES`) shared by both variants. -/
def CATEGORIES : List String :=
  ["Hortifrúti", "Açougue", "Laticínios", "Padaria", "Mercearia", "Bebidas",
   "Congelados", "Enlatados", "Limpeza", "Higiene", "Cozinha", "Casa",
   "Ferramentas", "Eletrônicos", "Farmácia", "Pet Shop", "Bebê",
   "Escritório", "Jardinagem", "Automotivo", "Outros"]

/-- True on the characters JavaScript `parseInt` skips as leading
whitespace (the forms a numeric input field can actually produce). -/
def isJsSpace (c : Char) : Bool :=
  c == ' ' || c == '\t' || c == '\n' || c == '\r'

/-- Decimal value of a digit string. -/
def digitsVal (ds : List Char) : Nat :=
  ds.foldl (fun a c => a * 10 + (c.toNat - 48)) 0

/-- JavaScript `parseInt(s)` on decimal input: skip leading whitespace, read
an optional sign, consume the maximal run of decimal digits; `none` models
`NaN` (no digits).  Radix auto-detection (hex prefixes) is irrelevant to the
strings a `type="number"` input produces and is not modelled. -/
def parseIntJS (s : String) : Option Int :=
  let cs := s.data.dropWhile isJsSpace
  match cs with
  | '-' :: rest =>
      let ds := rest.takeWhile Char.isDigit
      if ds.isEmpty then none else some (-(digitsVal ds : Int))
  | '+' :: rest =>
      let ds := rest.takeWhile Char.isDigit
      if ds.isEmpty then none else some ((digitsVal ds : Int))
  | _ =>
      let ds := cs.takeWhile Char.isDigit
      if ds.isEmpty then none else some ((digitsVal ds : Int))

/-- JavaScript `String.prototype.trim()`: strip leading and trailing
whitespace.  Written on the character list so that the kernel can evaluate
it on literals (`String.trim` of core is not kernel-reducible). -/
def trimJS (s : String) : String :=
  ⟨((s.data.dropWhile Char.isWhitespace).reverse.dropWhile Char.isWhitespace).reverse⟩

/-- A change-feed notification (`postgres_changes` payload): the handler
reads `payload.new` on INSERT and UPDATE and `payload.old` on DELETE. -/
inductive FeedEvent (α : Type) where
  | INSERT (new : α)
  | UPDATE (new : α)
  | DELETE (old : α)
  deriving DecidableEq

/-- The common reducer shape both subscriptions instantiate: prepend on
insert, replace-by-id on update, remove-by-id on delete. -/
def applyFeed {α : Type} (getId : α → String) :
    FeedEvent α → List α → List α
  | FeedEvent.INSERT r, prev => r :: prev
  | FeedEvent.UPDATE r, prev =>
      prev.map fun x => if getId x = getId r then r else x
  | FeedEvent.DELETE old, prev =>
      prev.filter fun x => getId x ≠ getId old

namespace Single

/-- `ShoppingItem` row of the single-list variant (no `list_id`). -/
structure ShoppingItem where
  id : String
  name : String
  category : String
  quantity : Option Int
  bought : Bool
  created_at : Option String
  updated_at : Option String
  deriving DecidableEq

/-- The component's `useState` cells in the single-list variant. -/
structure State where
  items : List ShoppingItem
  newItemName : String
  newItemCategory : String
  newItemQuantity : Int
  categoryOpen : Bool
  categorySearch : String
  loading : Bool
  deriving DecidableEq

/-- Mutating remote calls the single-list variant can issue. -/
inductive RemoteCall where
  | insertItem (name : String) (category : String) (quantity : Int) (bought : Bool)
  | updateItemBought (id : String) (bought : Bool)
  | deleteItemById (id : String)
  deriving DecidableEq

/-- Result of running one handler: trace of issued mutating remote calls,
successor component state, emitted toasts. -/
structure OpResult where
  calls : List RemoteCall
  state : State
  toasts : List Toast
  deriving DecidableEq

/-- The `shopping_items_changes` subscription handler (lines 75–85 of
`ShoppingList.tsx`). -/
def applyItemsChange : FeedEvent ShoppingItem → List ShoppingItem → List ShoppingItem
  | FeedEvent.INSERT r, prev => r :: prev
  | FeedEvent.UPDATE r, prev =>
      prev.map fun item => if item.id = r.id then r else item
  | FeedEvent.DELETE old, prev =>
      prev.filter fun item => item.id ≠ old.id

/-- The quantity input's `onChange` handler (line 259 of
`ShoppingList.tsx`): `setNewItemQuantity(parseInt(e.target.value) || 1)`;
`NaN` and `0` are falsy and replaced by `1`, every other parse result is
kept as is. -/
def quantityOnChange (v : String) : Int :=
  match parseIntJS v with
  | none => 1
  | some n => if n = 0 then 1 else n

/-- `fetchItems` of the single-list variant.  `outcome` is the result of the
awaited select (full snapshot ordered by descending creation time on
success).  The `finally` block clears the loading flag on both paths. -/
def fetchItems (s : State) (outcome : Except Unit (List ShoppingItem)) : OpResult :=
  match outcome with
  | Except.ok data =>
      { calls := [], state := { s with items := data, loading := false }, toasts := [] }
  | Except.error _ =>
      { calls := [], state := { s with loading := false },
        toasts := [erroCarregarItensToast] }

/-- `addItem` of the single-list variant.  `insertOk` is whether the awaited
insert returned without error. -/
def addItem (s : State) (insertOk : Bool) : OpResult :=
  if (trimJS s.newItemName) = "" ∨ s.newItemCategory = "" then
    { calls := [], state := s, toasts := [camposObrigatoriosToast] }
  else
    let call := RemoteCall.insertItem (trimJS s.newItemName) s.newItemCategory
      s.newItemQuantity false
    if insertOk then
      { calls := [call],
        state := { s with
                   newItemName := "", newItemCategory := "",
                   newItemQuantity := 1, categoryOpen := false,
                   categorySearch := "" },
        toasts := [itemAdicionadoToast] }
    else
      { calls := [call], state := s, toasts := [erroAdicionarItemToast] }

/-- `toggleItem` of the single-list variant: one update flipping the passed
boolean; no `setItems` occurs on any path. -/
def toggleItem (s : State) (id : String) (bought : Bool) (ok : Bool) : OpResult :=
  { calls := [RemoteCall.updateItemBought id (!bought)],
    state := s,
    toasts := if ok then [] else [erroAtualizarItemToast] }

end Single

namespace Multi

/-- `ShoppingList` row of the multi-list variant. -/
structure ShoppingListRow where
  id : String
  name : String
  created_at : Option String
  updated_at : Option String
  deriving DecidableEq

/-- `ShoppingItem` row of the multi-list variant (carries `list_id`). -/
structure ShoppingItem where
  id : String
  name : String
  category : String
  quantity : Option Int
  bought : Bool
  list_id : String
  created_at : Option String
  updated_at : Option String
  deriving DecidableEq

/-- The component's `useState` cells in the multi-list variant. -/
structure State where
  lists : List ShoppingListRow
  currentListId : Option String
  newListName : String
  editingListId : Option String
  editingListName : String
  items : List ShoppingItem
  newItemName : String
  newItemCategory : String
  newItemQuantity : Int
  categoryOpen : Bool
  categorySearch : String
  loading : Bool
  deriving DecidableEq

/-- Mutating remote calls the multi-list variant can issue. -/
inductive RemoteCall where
  | insertItem (name : String) (category : String) (quantity : Int)
      (list_id : String) (bought : Bool)
  | updateItemBought (id : String) (bought : Bool)
  | deleteItemById (id : String)
  | deleteItemsByListId (list_id : String)
  | insertList (name : String)
  | updateListName (id : String) (name : String)
  | deleteListById (id : String)
  deriving DecidableEq

/-- Result of running one handler in the multi-list variant. -/
structure OpResult where
  calls : List RemoteCall
  state : State
  toasts : List Toast
  deriving DecidableEq

/-- The `shopping_lists_changes` subscription handler (lines 98–108 of
`part_000`). -/
def applyListsChange : FeedEvent ShoppingListRow → List ShoppingListRow → List ShoppingListRow
  | FeedEvent.INSERT r, prev => r :: prev
  | FeedEvent.UPDATE r, prev =>
      prev.map fun list => if list.id = r.id then r else list
  | FeedEvent.DELETE old, prev =>
      prev.filter fun list => list.id ≠ old.id

/-- The `shopping_items_changes` subscription handler (lines 130–140 of
`part_000`).  The subscription carries no `list_id` filter and the INSERT
branch prepends the payload row unconditionally. -/
def applyItemsChange : FeedEvent ShoppingItem → List ShoppingItem → List ShoppingItem
  | FeedEvent.INSERT r, prev => r :: prev
  | FeedEvent.UPDATE r, prev =>
      prev.map fun item => if item.id = r.id then r else item
  | FeedEvent.DELETE old, prev =>
      prev.filter fun item => item.id ≠ old.id

/-- The quantity input's `onChange` handler (lines 599–607 of `part_000`):
empty string resets to 1; otherwise `parseInt`, keeping the value only when
strictly positive (`num > 0 ? num : 1`; `NaN > 0` is false). -/
def quantityOnChange (v : String) : Int :=
  if v = "" then 1
  else
    match parseIntJS v with
    | none => 1
    | some num => if num > 0 then num else 1

/-- `fetchLists` of the multi-list variant; the `finally` block clears the
loading flag on both paths. -/
def fetchLists (s : State) (outcome : Except Unit (List ShoppingListRow)) : OpResult :=
  match outcome with
  | Except.ok data =>
      { calls := [], state := { s with lists := data, loading := false }, toasts := [] }
  | Except.error _ =>
      { calls := [], state := { s with loading := false },
        toasts := [erroCarregarListasToast] }

/-- `fetchItems` of the multi-list variant: early return when no list is
active; otherwise full replace on success, error toast on failure (this
revision touches no loading flag in `fetchItems`). -/
def fetchItems (s : State) (outcome : Except Unit (List ShoppingItem)) : OpResult :=
  match s.currentListId with
  | none => { calls := [], state := s, toasts := [] }
  | some _ =>
      match outcome with
      | Except.ok data =>
          { calls := [], state := { s with items := data }, toasts := [] }
      | Except.error _ =>
          { calls := [], state := s, toasts := [erroCarregarItensToast] }

/-- `createList` (lines 192–226 of `part_000`).  `outcome` is the row
returned by `insert(...).select().single()` on success, `none` on error.  On
success the input is cleared and the view switches to the new row's id
without waiting for any feed event. -/
def createList (s : State) (outcome : Option ShoppingListRow) : OpResult :=
  if (trimJS s.newListName) = "" then
    { calls := [], state := s, toasts := [nomeObrigatorioToast] }
  else
    match outcome with
    | some row =>
        { calls := [RemoteCall.insertList (trimJS s.newListName)],
          state := { s with newListName := "", currentListId := some row.id },
          toasts := [listaCriadaToast] }
    | none =>
        { calls := [RemoteCall.insertList (trimJS s.newListName)],
          state := s, toasts := [erroCriarListaToast] }

/-- `deleteList` (lines 263–296 of `part_000`): first delete all items with
this `list_id` (result unchecked), then delete the list row; on success, if
the deleted list is the active one, clear the active id and the item
collection.  `ok` is whether the checked list-row delete succeeded. -/
def deleteList (s : State) (id : String) (ok : Bool) : OpResult :=
  let calls := [RemoteCall.deleteItemsByListId id, RemoteCall.deleteListById id]
  if ok then
    if s.currentListId = some id then
      { calls := calls,
        state := { s with currentListId := none, items := [] },
        toasts := [listaRemovidaToast] }
    else
      { calls := calls, state := s, toasts := [listaRemovidaToast] }
  else
    { calls := calls, state := s, toasts := [erroRemoverListaToast] }

/-- `addItem` of the multi-list variant (lines 298–341 of `part_000`):
validation also requires an active list; the insert carries its id. -/
def addItem (s : State) (insertOk : Bool) : OpResult :=
  match s.currentListId with
  | none => { calls := [], state := s, toasts := [camposObrigatoriosToast] }
  | some lid =>
      if (trimJS s.newItemName) = "" ∨ s.newItemCategory = "" then
        { calls := [], state := s, toasts := [camposObrigatoriosToast] }
      else
        let call := RemoteCall.insertItem (trimJS s.newItemName) s.newItemCategory
          s.newItemQuantity lid false
        if insertOk then
          { calls := [call],
            state := { s with
                       newItemName := "", newItemCategory := "",
                       newItemQuantity := 1, categoryOpen := false,
                       categorySearch := "" },
            toasts := [itemAdicionadoToast] }
        else
          { calls := [call], state := s, toasts := [erroAdicionarItemToast] }

/-- `toggleItem` of the multi-list variant (lines 343–359 of `part_000`). -/
def toggleItem (s : State) (id : String) (bought : Bool) (ok : Bool) : OpResult :=
  { calls := [RemoteCall.updateItemBought id (!bought)],
    state := s,
    toasts := if ok then [] else [erroAtualizarItemToast] }

end Multi

/-- One step of the `reduce` in `groupedItems`: JavaScript object semantics
append a fresh key at the end of the entry order and `push` appends to the
existing key's array otherwise.  `cat` abstracts the `item.category` field
so that the identical code of both variants is covered once. -/
def groupedStep {α : Type} (cat : α → String)
    (acc : List (String × List α)) (it : α) : List (String × List α) :=
  if acc.any (fun p => p.1 = cat it) then
    acc.map fun p => if p.1 = cat it then (p.1, p.2 ++ [it]) else p
  else
    acc ++ [(cat it, [it])]

/-- `items.reduce(...)` of `groupedItems`, as an entry list in the key
insertion order that `Object.entries` later enumerates. -/
def groupedItemsBy {α : Type} (cat : α → String) (items : List α) :
    List (String × List α) :=
  items.foldl (groupedStep cat) []

/-- `groupedItems` of the single-list variant (lines 200–207 of
`ShoppingList.tsx`). -/
def Single.groupedItems (items : List Single.ShoppingItem) :
    List (String × List Single.ShoppingItem) :=
  groupedItemsBy (fun item => item.category) items

/-- `groupedItems` of the multi-list variant (lines 384–391 of
`part_000`). -/
def Multi.groupedItems (items : List Multi.ShoppingItem) :
    List (String × List Multi.ShoppingItem) :=
  groupedItemsBy (fun item => item.category) items

/-- Sample rows and states used to instantiate the claim theorems on
concrete inputs. -/
def itemPao : Single.ShoppingItem :=
  ⟨"I1", "Pão", "Padaria", some 1, false, none, none⟩

def itemPaoBought : Single.ShoppingItem :=
  ⟨"I1", "Pão", "Padaria", some 1, true, none, none⟩

def itemLeite : Single.ShoppingItem :=
  ⟨"I2", "Leite", "Laticínios", some 2, false, none, none⟩

def itemBolo : Single.ShoppingItem :=
  ⟨"I3", "Bolo", "Padaria", some 1, true, none, none⟩

def mItemPao : Multi.ShoppingItem :=
  ⟨"I1", "Pão", "Padaria", some 1, false, "L1", none, none⟩

def mItemOther : Multi.ShoppingItem :=
  ⟨"I9", "Sabão", "Limpeza", some 1, false, "L2", none, none⟩

def sampleListRow : Multi.ShoppingListRow := ⟨"L1", "Mercado", none, none⟩

def newListRow : Multi.ShoppingListRow := ⟨"L9", "Feira", none, none⟩

def sampleSingleState : Single.State :=
  { items := [itemPao], newItemName := "Leite", newItemCategory := "Laticínios",
    newItemQuantity := 2, categoryOpen := true, categorySearch := "La",
    loading := false }

def sampleMultiState : Multi.State :=
  { lists := [sampleListRow], currentListId := some "L1", newListName := "Feira",
    editingListId := none, editingListName := "", items := [mItemPao],
    newItemName := "Leite", newItemCategory := "Laticínios",
    newItemQuantity := 2, categoryOpen := true, categorySearch := "",
    loading := false }

def emptyNameSingleState : Single.State :=
  { items := [], newItemName := "   ", newItemCategory := "Padaria",
    newItemQuantity := 1, categoryOpen := false, categorySearch := "",
    loading := true }

def noListMultiState : Multi.State :=
  { lists := [], currentListId := none, newListName := "  ",
    editingListId := none, editingListName := "", items := [],
    newItemName := "Pão", newItemCategory := "Padaria", newItemQuantity := 1,
    categoryOpen := false, categorySearch := "", loading := true }

theorem exists_snd_iff_mem_keys {α : Type} (G : List (String × List α)) (c : String) :
    (∃ g, (c, g) ∈ G) ↔ c ∈ G.map Prod.fst := by
  constructor
  · rintro ⟨g, hg⟩
    exact List.mem_map.mpr ⟨(c, g), hg, rfl⟩
  · intro h
    rcases List.mem_map.mp h with ⟨⟨c1, g⟩, hp, rfl⟩
    exact ⟨g, hp⟩

theorem bind_update_perm {α : Type} (c : String) (x : α) :
    ∀ (G : List (String × List α)), (G.map Prod.fst).Nodup →
      (∃ p ∈ G, p.1 = c) →
      ((G.map fun p => if p.1 = c then (p.1, p.2 ++ [x]) else p).flatMap Prod.snd).Perm
        (x :: G.flatMap Prod.snd) := by
  intro G
  induction G with
  | nil => rintro _ ⟨p, hp, _⟩; cases hp
  | cons q G ih =>
      intro hnodup hex
      have hnodup' : (q.1 :: G.map Prod.fst).Nodup := by simpa using hnodup
      have hnd := List.nodup_cons.mp hnodup'
      by_cases hq : q.1 = c
      · have hGid : (G.map fun p => if p.1 = c then (p.1, p.2 ++ [x]) else p) = G := by
          have hne : ∀ p ∈ G, (if p.1 = c then (p.1, p.2 ++ [x]) else p) = id p := by
            intro p hp
            have hpn : ¬ p.1 = c := by
              intro hpc
              refine hnd.1 ?_
              have hm : p.1 ∈ G.map Prod.fst := List.mem_map.mpr ⟨p, hp, rfl⟩
              rw [hpc, ← hq] at hm
              exact hm
            simp [hpn]
          rw [List.map_congr_left hne, List.map_id]
        simp only [List.map_cons, List.flatMap_cons, hGid]
        rw [if_pos hq]
        show ((q.2 ++ [x]) ++ G.flatMap Prod.snd).Perm (x :: (q.2 ++ G.flatMap Prod.snd))
        rw [List.append_assoc, List.singleton_append]
        exact List.perm_middle
      · rcases hex with ⟨p, hp, hpc⟩
        have hpG : p ∈ G := by
          rcases List.mem_cons.mp hp with h | h
          · exact absurd (h ▸ hpc) hq
          · exact h
        have ih' := ih hnd.2 ⟨p, hpG, hpc⟩
        simp only [List.map_cons, List.flatMap_cons]
        rw [if_neg hq]
        exact (ih'.append_left q.2).trans List.perm_middle


theorem groupedStep_invariant {α : Type} (cat : α → String) (done : List α) (x : α)
    (acc : List (String × List α))
    (hnodup : (acc.map Prod.fst).Nodup)
    (hfilter : ∀ p ∈ acc, p.2 = done.filter fun y => cat y = p.1)
    (hkeys : ∀ c : String, (∃ g, (c, g) ∈ acc) ↔ ∃ y ∈ done, cat y = c)
    (hperm : (acc.flatMap Prod.snd).Perm done) :
    ((groupedStep cat acc x).map Prod.fst).Nodup ∧
    (∀ p ∈ groupedStep cat acc x, p.2 = (done ++ [x]).filter fun y => cat y = p.1) ∧
    (∀ c : String, (∃ g, (c, g) ∈ groupedStep cat acc x) ↔ ∃ y ∈ done ++ [x], cat y = c) ∧
    ((groupedStep cat acc x).flatMap Prod.snd).Perm (done ++ [x]) := by
  by_cases hx : acc.any (fun p => p.1 = cat x) = true
  case pos =>
    have hex : ∃ p ∈ acc, p.1 = cat x := by simpa using hx
    have hstep : groupedStep cat acc x =
        acc.map fun p => if p.1 = cat x then (p.1, p.2 ++ [x]) else p := by
      simp [groupedStep, hx]
    have keysEq : ((acc.map fun p => if p.1 = cat x then (p.1, p.2 ++ [x]) else p).map
        Prod.fst) = acc.map Prod.fst := by
      rw [List.map_map]
      refine List.map_congr_left ?_
      intro p _
      by_cases h : p.1 = cat x <;> simp [h]
    have hckey : ∃ g, (cat x, g) ∈ acc := by
      rcases hex with ⟨p, hp, hpx⟩
      refine ⟨p.2, ?_⟩
      have hpp : (p.1, p.2) ∈ acc := by simpa using hp
      rw [hpx] at hpp
      exact hpp
    refine ⟨?_, ?_, ?_, ?_⟩
    · rw [hstep, keysEq]; exact hnodup
    · intro p' hp'
      rw [hstep] at hp'
      rcases List.mem_map.mp hp' with ⟨p, hp, rfl⟩
      by_cases h : p.1 = cat x
      · rw [if_pos h]
        show p.2 ++ [x] = (done ++ [x]).filter fun y => cat y = p.1
        rw [List.filter_append, hfilter p hp]
        congr 1
        simp [h.symm]
      · rw [if_neg h]
        show p.2 = (done ++ [x]).filter fun y => cat y = p.1
        rw [List.filter_append, hfilter p hp]
        have hxf : (List.filter (fun y => cat y = p.1) [x]) = [] := by
          have hc : ¬ cat x = p.1 := fun hc => h hc.symm
          simp [List.filter_singleton, hc]
        rw [hxf, List.append_nil]
    · intro c
      rw [hstep, exists_snd_iff_mem_keys, keysEq, ← exists_snd_iff_mem_keys, hkeys]
      constructor
      · rintro ⟨y, hy, hyc⟩
        exact ⟨y, List.mem_append_left _ hy, hyc⟩
      · rintro ⟨y, hy, hyc⟩
        rcases List.mem_append.mp hy with h | h
        · exact ⟨y, h, hyc⟩
        · have hcx : cat x = c := by
            rw [List.mem_singleton] at h
            rw [← h]; exact hyc
          have hin : ∃ y ∈ done, cat y = cat x := (hkeys (cat x)).mp hckey
          rw [hcx] at hin
          exact hin
    · rw [hstep]
      refine (bind_update_perm (cat x) x acc hnodup hex).trans ?_
      refine (hperm.cons x).trans ?_
      exact (List.perm_append_singleton x done).symm
  case neg =>
    have hnot : ∀ p ∈ acc, ¬ p.1 = cat x := by
      intro p hp hpc
      exact hx (List.any_eq_true.mpr ⟨p, hp, by simp [hpc]⟩)
    have hstep : groupedStep cat acc x = acc ++ [(cat x, [x])] := by
      simp [groupedStep, hx]
    have hdone : ∀ y ∈ done, ¬ cat y = cat x := by
      intro y hy hyc
      rcases (hkeys (cat x)).mpr ⟨y, hy, hyc⟩ with ⟨g, hg⟩
      exact hnot (cat x, g) hg rfl
    refine ⟨?_, ?_, ?_, ?_⟩
    · rw [hstep, List.map_append, List.nodup_append]
      refine ⟨hnodup, by simp, ?_⟩
      intro b hb hb'
      simp at hb'
      rcases List.mem_map.mp hb with ⟨p, hp, hpb⟩
      exact hnot p hp (hpb.trans hb')
    · intro p' hp'
      rw [hstep] at hp'
      rcases List.mem_append.mp hp' with h | h
      · rw [List.filter_append, ← hfilter p' h]
        have hxf : (List.filter (fun y => cat y = p'.1) [x]) = [] := by
          have hc : ¬ cat x = p'.1 := fun hc => hnot p' h hc.symm
          simp [List.filter_singleton, hc]
        rw [hxf, List.append_nil]
      · rw [List.mem_singleton] at h
        subst h
        show [x] = (done ++ [x]).filter fun y => cat y = cat x
        rw [List.filter_append]
        have hdf : (done.filter fun y => cat y = cat x) = [] := by
          rw [List.filter_eq_nil_iff]
          intro y hy
          simpa using hdone y hy
        have hxf : (List.filter (fun y => cat y = cat x) [x]) = [x] := by
          simp
        rw [hdf, hxf, List.nil_append]
    · intro c
      rw [hstep]
      constructor
      · rintro ⟨g, hg⟩
        rcases List.mem_append.mp hg with h | h
        · rcases (hkeys c).mp ⟨g, h⟩ with ⟨y, hy, hyc⟩
          exact ⟨y, List.mem_append_left _ hy, hyc⟩
        · rw [List.mem_singleton] at h
          have hcx : c = cat x := congrArg Prod.fst h
          exact ⟨x, List.mem_append_right _ (List.mem_singleton.mpr rfl), hcx.symm⟩
      · rintro ⟨y, hy, hyc⟩
        rcases List.mem_append.mp hy with h | h
        · rcases (hkeys c).mpr ⟨y, h, hyc⟩ with ⟨g, hg⟩
          exact ⟨g, List.mem_append_left _ hg⟩
        · rw [List.mem_singleton] at h
          refine ⟨[x], ?_⟩
          have hcx : cat x = c := by rw [← h]; exact hyc
          rw [← hcx]
          exact List.mem_append_right _ (List.mem_singleton.mpr rfl)
    · rw [hstep, List.flatMap_append]
      have hsing : (([(cat x, [x])]).flatMap Prod.snd) = [x] := by simp
      rw [hsing]
      exact hperm.append_right [x]

theorem groupedItemsBy_concat {α : Type} (cat : α → String) (l : List α) (x : α) :
    groupedItemsBy cat (l ++ [x]) = groupedStep cat (groupedItemsBy cat l) x := by
  simp [groupedItemsBy, List.foldl_append]

theorem groupedItemsBy_invariant {α : Type} (cat : α → String) (items : List α) :
    ((groupedItemsBy cat items).map Prod.fst).Nodup ∧
    (∀ p ∈ groupedItemsBy cat items, p.2 = items.filter fun y => cat y = p.1) ∧
    (∀ c : String, (∃ g, (c, g) ∈ groupedItemsBy cat items) ↔ ∃ y ∈ items, cat y = c) ∧
    ((groupedItemsBy cat items).flatMap Prod.snd).Perm items := by
  induction items using List.reverseRecOn with
  | nil => simp [groupedItemsBy]
  | append_singleton l x ih =>
      rw [groupedItemsBy_concat]
      exact groupedStep_invariant cat l x (groupedItemsBy cat l) ih.1 ih.2.1 ih.2.2.1 ih.2.2.2

theorem groupedItemsBy_partition {α : Type} (cat : α → String) (items : List α) :
    ((groupedItemsBy cat items).map Prod.fst).Nodup ∧
    (∀ p ∈ groupedItemsBy cat items, p.2 = items.filter fun y => cat y = p.1) ∧
    (∀ p ∈ groupedItemsBy cat items, ¬ p.2 = []) ∧
    (∀ c : String,
      (∃ g, (c, g) ∈ groupedItemsBy cat items) ↔ ∃ y ∈ items, cat y = c) ∧
    (∀ p ∈ groupedItemsBy cat items, ∀ q ∈ groupedItemsBy cat items,
      ¬ p.1 = q.1 → ∀ y ∈ p.2, ¬ y ∈ q.2) ∧
    ((groupedItemsBy cat items).flatMap Prod.snd).Perm items := by
  obtain ⟨h1, h2, h3, h4⟩ := groupedItemsBy_invariant cat items
  have hmemcat : ∀ p ∈ groupedItemsBy cat items, ∀ y ∈ p.2, cat y = p.1 := by
    intro p hp y hy
    rw [h2 p hp] at hy
    exact of_decide_eq_true (List.mem_filter.mp hy).2
  refine ⟨h1, h2, ?_, h3, ?_, h4⟩
  · intro p hp hnil
    have hpk : ∃ g, (p.1, g) ∈ groupedItemsBy cat items := ⟨p.2, by simpa using hp⟩
    rcases (h3 p.1).mp hpk with ⟨y, hy, hyc⟩
    have hmem : y ∈ items.filter fun z => cat z = p.1 :=
      List.mem_filter.mpr ⟨hy, by simp [hyc]⟩
    rw [← h2 p hp, hnil] at hmem
    cases hmem
  · intro p hp q hq hne y hyp hyq
    exact hne ((hmemcat p hp y hyp).symm.trans (hmemcat q hq y hyq))

/-- Claim C1, counterexample: in the single-list variant the quantity input
"-3" is stored as -3 by the `onChange` handler (`parseInt(v) || 1` only
replaces falsy results, and -3 is truthy), so it is not normalized to 1 and
a non-positive quantity can reach the add-item insert. -/
theorem quantity_normalization_counterexample :
    Single.quantityOnChange "-3" = -3 ∧ ¬ Single.quantityOnChange "-3" = 1 := by
  decide

/-- Claim C1 (amended): in the multi-list variant every quantity input
normalizes to a positive integer before it can be sent in an insert, with
"0", "-3" and the empty string all mapped to 1; in the single-list variant
"0" and the empty string are mapped to 1 but a negative integer input such
as "-3" is stored unchanged. -/
theorem quantity_normalization :
    Multi.quantityOnChange "0" = 1 ∧ Multi.quantityOnChange "-3" = 1 ∧
    Multi.quantityOnChange "" = 1 ∧
    (∀ v : String, 1 ≤ Multi.quantityOnChange v) ∧
    Single.quantityOnChange "0" = 1 ∧ Single.quantityOnChange "" = 1 ∧
    Single.quantityOnChange "-3" = -3 := by
  refine ⟨by decide, by decide, by decide, ?_, by decide, by decide, by decide⟩
  intro v
  unfold Multi.quantityOnChange
  by_cases hv : v = ""
  · simp [hv]
  · rw [if_neg hv]
    cases h : parseIntJS v with
    | none => exact le_refl 1
    | some n =>
        show 1 ≤ if n > 0 then n else 1
        by_cases hn : n > 0
        · rw [if_pos hn]; omega
        · rw [if_neg hn]

/-- Claim C2: the change-feed reducer prepends the payload row on an insert
event, replaces the row with matching identifier in place (same length,
same positions) on an update event, and removes exactly the rows with
matching identifier (keeping relative order) on a delete event; the lists
handler and both items handlers are instances of the one reducer shape
`applyFeed`, keyed by row identifier. -/
theorem feed_reducer_spec :
    (∀ (α : Type) (getId : α → String) (r : α) (rows : List α),
      applyFeed getId (FeedEvent.INSERT r) rows = r :: rows ∧
      (applyFeed getId (FeedEvent.UPDATE r) rows).length = rows.length ∧
      (∀ i : Nat, (applyFeed getId (FeedEvent.UPDATE r) rows)[i]? =
        (rows[i]?).map fun y => if getId y = getId r then r else y) ∧
      (applyFeed getId (FeedEvent.DELETE r) rows).Sublist rows ∧
      (∀ y, y ∈ applyFeed getId (FeedEvent.DELETE r) rows ↔
        y ∈ rows ∧ ¬ getId y = getId r)) ∧
    (∀ (e : FeedEvent Multi.ShoppingListRow) (rows : List Multi.ShoppingListRow),
      Multi.applyListsChange e rows = applyFeed (fun l => l.id) e rows) ∧
    (∀ (e : FeedEvent Multi.ShoppingItem) (rows : List Multi.ShoppingItem),
      Multi.applyItemsChange e rows = applyFeed (fun item => item.id) e rows) ∧
    (∀ (e : FeedEvent Single.ShoppingItem) (rows : List Single.ShoppingItem),
      Single.applyItemsChange e rows = applyFeed (fun item => item.id) e rows) := by
  refine ⟨?_, ?_, ?_, ?_⟩
  · intro α getId r rows
    refine ⟨rfl, by simp [applyFeed], ?_, ?_, ?_⟩
    · intro i
      simp [applyFeed, List.getElem?_map]
    · exact List.filter_sublist rows
    · intro y
      simp [applyFeed, List.mem_filter]
  · intro e rows; cases e <;> rfl
  · intro e rows; cases e <;> rfl
  · intro e rows; cases e <;> rfl

theorem feed_reducer_spec_witness :
    Single.applyItemsChange (FeedEvent.INSERT itemLeite) [itemPao] =
      [itemLeite, itemPao] ∧
    (itemBolo ∈ Single.applyItemsChange (FeedEvent.DELETE itemPao) [itemPao, itemBolo] ↔
      itemBolo ∈ [itemPao, itemBolo] ∧ ¬ itemBolo.id = itemPao.id) := by
  have h := feed_reducer_spec
  constructor
  · rw [h.2.2.2 (FeedEvent.INSERT itemLeite) [itemPao]]
    exact (h.1 Single.ShoppingItem (fun item => item.id) itemLeite [itemPao]).1
  · rw [h.2.2.2 (FeedEvent.DELETE itemPao) [itemPao, itemBolo]]
    exact (h.1 Single.ShoppingItem (fun item => item.id) itemPao
      [itemPao, itemBolo]).2.2.2.2 itemBolo

/-- Claim C10: in the multi-list variant the items-feed INSERT handler
prepends the payload row to the in-memory items sequence without comparing
the row's `list_id` to the active list identifier, so a row whose `list_id`
differs from any given current list id still ends up in the items sequence. -/
theorem items_feed_insert_unfiltered (rows : List Multi.ShoppingItem)
    (r : Multi.ShoppingItem) (cur : String) :
    Multi.applyItemsChange (FeedEvent.INSERT r) rows = r :: rows ∧
    (¬ r.list_id = cur → r ∈ Multi.applyItemsChange (FeedEvent.INSERT r) rows) :=
  ⟨rfl, fun _ => List.mem_cons_self r rows⟩

theorem items_feed_insert_unfiltered_witness :
    Multi.applyItemsChange (FeedEvent.INSERT mItemOther) [mItemPao] =
      [mItemOther, mItemPao] ∧
    mItemOther ∈ Multi.applyItemsChange (FeedEvent.INSERT mItemOther) [mItemPao] := by
  have h := items_feed_insert_unfiltered [mItemPao] mItemOther "L1"
  exact ⟨h.1, h.2 (by decide)⟩

/-- Claim C3: for every item sequence, `groupedItems` (total by
construction, in both variants) yields a partition: distinct category keys,
each group equal to the ordered subsequence of items carrying its category
label, no empty group, a key present exactly when some item carries it, no
item shared between two groups, and the concatenation of all groups a
permutation of the original sequence (so each item occurs exactly once
across the groups, counted with multiplicity). -/
theorem groupedItems_partition :
    (∀ items : List Single.ShoppingItem,
      ((Single.groupedItems items).map Prod.fst).Nodup ∧
      (∀ p ∈ Single.groupedItems items,
        p.2 = items.filter fun y => y.category = p.1) ∧
      (∀ p ∈ Single.groupedItems items, ¬ p.2 = []) ∧
      (∀ c : String,
        (∃ g, (c, g) ∈ Single.groupedItems items) ↔ ∃ y ∈ items, y.category = c) ∧
      (∀ p ∈ Single.groupedItems items, ∀ q ∈ Single.groupedItems items,
        ¬ p.1 = q.1 → ∀ y ∈ p.2, ¬ y ∈ q.2) ∧
      ((Single.groupedItems items).flatMap Prod.snd).Perm items) ∧
    (∀ items : List Multi.ShoppingItem,
      ((Multi.groupedItems items).map Prod.fst).Nodup ∧
      (∀ p ∈ Multi.groupedItems items,
        p.2 = items.filter fun y => y.category = p.1) ∧
      (∀ p ∈ Multi.groupedItems items, ¬ p.2 = []) ∧
      (∀ c : String,
        (∃ g, (c, g) ∈ Multi.groupedItems items) ↔ ∃ y ∈ items, y.category = c) ∧
      (∀ p ∈ Multi.groupedItems items, ∀ q ∈ Multi.groupedItems items,
        ¬ p.1 = q.1 → ∀ y ∈ p.2, ¬ y ∈ q.2) ∧
      ((Multi.groupedItems items).flatMap Prod.snd).Perm items) := by
  constructor
  · intro items
    exact groupedItemsBy_partition (fun item => item.category) items
  · intro items
    exact groupedItemsBy_partition (fun item => item.category) items

theorem groupedItems_partition_witness :
    ([itemPao, itemBolo] : List Single.ShoppingItem) =
      List.filter (fun y => y.category = "Padaria") [itemPao, itemLeite, itemBolo] :=
  (groupedItems_partition.1 [itemPao, itemLeite, itemBolo]).2.1
    ("Padaria", [itemPao, itemBolo]) (by decide)

/-- Claim C4: toggling an item issues exactly one remote update carrying the
negation of the passed bought value, leaves the component state (hence the
local items sequence) unchanged on both the success and the error path, and
the local bought flag changes only once the corresponding feed UPDATE event
is applied: after applying the echo row, every item with the toggled id
carries the flipped flag. -/
theorem toggleItem_spec (s₁ : Single.State) (s₂ : Multi.State) (id : String)
    (bought ok₁ ok₂ : Bool) :
    (Single.toggleItem s₁ id bought ok₁).calls =
      [Single.RemoteCall.updateItemBought id (!bought)] ∧
    (Single.toggleItem s₁ id bought ok₁).state = s₁ ∧
    (Multi.toggleItem s₂ id bought ok₂).calls =
      [Multi.RemoteCall.updateItemBought id (!bought)] ∧
    (Multi.toggleItem s₂ id bought ok₂).state = s₂ ∧
    (∀ row : Single.ShoppingItem, row.id = id → row.bought = !bought →
      ∀ y ∈ Single.applyItemsChange (FeedEvent.UPDATE row) s₁.items,
        y.id = id → y.bought = !bought) := by
  refine ⟨rfl, rfl, rfl, rfl, ?_⟩
  intro row hrid hrb y hy hyid
  simp only [Single.applyItemsChange] at hy
  rcases List.mem_map.mp hy with ⟨z, hz, rfl⟩
  by_cases h : z.id = row.id
  · rw [if_pos h]
    exact hrb
  · rw [if_neg h] at hyid ⊢
    rw [hrid] at h
    exact absurd hyid h

theorem toggleItem_spec_witness :
    (Single.toggleItem sampleSingleState "I1" false true).calls =
      [Single.RemoteCall.updateItemBought "I1" (!false)] ∧
    (Single.toggleItem sampleSingleState "I1" false true).state =
      sampleSingleState ∧
    (Multi.toggleItem sampleMultiState "I1" false true).calls =
      [Multi.RemoteCall.updateItemBought "I1" (!false)] ∧
    (Multi.toggleItem sampleMultiState "I1" false true).state =
      sampleMultiState ∧
    itemPaoBought.bought = !false := by
  have h := toggleItem_spec sampleSingleState sampleMultiState "I1" false true true
  refine ⟨h.1, h.2.1, h.2.2.1, h.2.2.2.1, ?_⟩
  exact h.2.2.2.2 itemPaoBought rfl rfl itemPaoBought (by decide) rfl

/-- Claim C5: `addItem` issues a remote insert exactly when the trimmed item
name and the category are non-empty (and, in the multi-list variant, a list
is active); when validation fails it issues no remote call, emits the
required-fields notification, and leaves the component state unchanged. -/
theorem addItem_validation (s₁ : Single.State) (s₂ : Multi.State) (ok₁ ok₂ : Bool) :
    (¬ (Single.addItem s₁ ok₁).calls = [] ↔
      ¬ (trimJS s₁.newItemName) = "" ∧ ¬ s₁.newItemCategory = "") ∧
    ((trimJS s₁.newItemName) = "" ∨ s₁.newItemCategory = "" →
      Single.addItem s₁ ok₁ =
        { calls := [], state := s₁, toasts := [camposObrigatoriosToast] }) ∧
    (¬ (Multi.addItem s₂ ok₂).calls = [] ↔
      ¬ (trimJS s₂.newItemName) = "" ∧ ¬ s₂.newItemCategory = "" ∧
        ¬ s₂.currentListId = none) ∧
    ((trimJS s₂.newItemName) = "" ∨ s₂.newItemCategory = "" ∨ s₂.currentListId = none →
      Multi.addItem s₂ ok₂ =
        { calls := [], state := s₂, toasts := [camposObrigatoriosToast] }) := by
  refine ⟨?_, ?_, ?_, ?_⟩
  · by_cases h1 : (trimJS s₁.newItemName) = "" <;> by_cases h2 : s₁.newItemCategory = "" <;>
      cases ok₁ <;> simp [Single.addItem, h1, h2]
  · intro hval
    unfold Single.addItem
    rw [if_pos hval]
  · cases hcur : s₂.currentListId with
    | none => simp [Multi.addItem, hcur]
    | some lid =>
        by_cases h1 : (trimJS s₂.newItemName) = "" <;>
          by_cases h2 : s₂.newItemCategory = "" <;>
          cases ok₂ <;> simp [Multi.addItem, hcur, h1, h2]
  · intro hval
    cases hcur : s₂.currentListId with
    | none => simp [Multi.addItem, hcur]
    | some lid =>
        have hv : (trimJS s₂.newItemName) = "" ∨ s₂.newItemCategory = "" := by
          rcases hval with h | h | h
          · exact Or.inl h
          · exact Or.inr h
          · rw [hcur] at h; cases h
        simp only [Multi.addItem, hcur]
        rw [if_pos hv]

theorem addItem_validation_witness :
    Single.addItem emptyNameSingleState true =
      { calls := [], state := emptyNameSingleState,
        toasts := [camposObrigatoriosToast] } ∧
    Multi.addItem noListMultiState true =
      { calls := [], state := noListMultiState,
        toasts := [camposObrigatoriosToast] } := by
  have h := addItem_validation emptyNameSingleState noListMultiState true true
  exact ⟨h.2.1 (Or.inl (by decide)), h.2.2.2 (Or.inr (Or.inr rfl))⟩

/-- Claim C6: adding a valid item (non-empty trimmed name, non-empty
category, and in the multi-list variant an active list) issues exactly one
insert carrying the trimmed name, the selected category, the current
quantity state (plus the active list id in the multi-list variant) and
`bought := false`; on success the name, category and quantity inputs and the
category-picker state are reset to their defaults, all other state fields
untouched. -/
theorem addItem_valid_insert (s₁ : Single.State) (s₂ : Multi.State) (lid : String)
    (h1 : ¬ (trimJS s₁.newItemName) = "") (h2 : ¬ s₁.newItemCategory = "")
    (h3 : ¬ (trimJS s₂.newItemName) = "") (h4 : ¬ s₂.newItemCategory = "")
    (h5 : s₂.currentListId = some lid) :
    Single.addItem s₁ true =
      { calls := [Single.RemoteCall.insertItem (trimJS s₁.newItemName)
          s₁.newItemCategory s₁.newItemQuantity false],
        state := { s₁ with
                   newItemName := "", newItemCategory := "",
                   newItemQuantity := 1, categoryOpen := false,
                   categorySearch := "" },
        toasts := [itemAdicionadoToast] } ∧
    Multi.addItem s₂ true =
      { calls := [Multi.RemoteCall.insertItem (trimJS s₂.newItemName)
          s₂.newItemCategory s₂.newItemQuantity lid false],
        state := { s₂ with
                   newItemName := "", newItemCategory := "",
                   newItemQuantity := 1, categoryOpen := false,
                   categorySearch := "" },
        toasts := [itemAdicionadoToast] } := by
  constructor
  · unfold Single.addItem
    rw [if_neg (by simp [h1, h2])]
    rfl
  · simp only [Multi.addItem, h5]
    rw [if_neg (by simp [h3, h4])]
    rfl

theorem addItem_valid_insert_witness :
    Single.addItem sampleSingleState true =
      { calls := [Single.RemoteCall.insertItem "Leite" "Laticínios" 2 false],
        state := { sampleSingleState with
                   newItemName := "", newItemCategory := "",
                   newItemQuantity := 1, categoryOpen := false,
                   categorySearch := "" },
        toasts := [itemAdicionadoToast] } ∧
    Multi.addItem sampleMultiState true =
      { calls := [Multi.RemoteCall.insertItem "Leite" "Laticínios" 2 "L1" false],
        state := { sampleMultiState with
                   newItemName := "", newItemCategory := "",
                   newItemQuantity := 1, categoryOpen := false,
                   categorySearch := "" },
        toasts := [itemAdicionadoToast] } := by
  have h := addItem_valid_insert sampleSingleState sampleMultiState "L1"
    (by decide) (by decide) (by decide) (by decide) rfl
  exact ⟨h.1.trans (by decide), h.2.trans (by decide)⟩

/-- Claim C7: `createList` rejects an empty or whitespace-only name locally
with the name-required notification and no remote call and no other state
change; for a non-whitespace name it issues exactly one insert carrying the
trimmed name and, when the insert succeeds and returns the created row, it
immediately sets the active view to that row's identifier and clears the
name input, without waiting for any feed event. -/
theorem createList_spec (s : Multi.State) (outcome : Option Multi.ShoppingListRow) :
    ((trimJS s.newListName) = "" →
      Multi.createList s outcome =
        { calls := [], state := s, toasts := [nomeObrigatorioToast] }) ∧
    (¬ (trimJS s.newListName) = "" →
      (Multi.createList s outcome).calls =
        [Multi.RemoteCall.insertList (trimJS s.newListName)] ∧
      ∀ row, outcome = some row →
        Multi.createList s outcome =
          { calls := [Multi.RemoteCall.insertList (trimJS s.newListName)],
            state := { s with newListName := "", currentListId := some row.id },
            toasts := [listaCriadaToast] }) := by
  constructor
  · intro h
    unfold Multi.createList
    rw [if_pos h]
  · intro h
    constructor
    · cases outcome with
      | some row => simp [Multi.createList, h]
      | none => simp [Multi.createList, h]
    · intro row hrow
      subst hrow
      simp [Multi.createList, h]

theorem createList_spec_witness :
    Multi.createList noListMultiState none =
      { calls := [], state := noListMultiState, toasts := [nomeObrigatorioToast] } ∧
    Multi.createList sampleMultiState (some newListRow) =
      { calls := [Multi.RemoteCall.insertList "Feira"],
        state := { sampleMultiState with
                   newListName := "", currentListId := some "L9" },
        toasts := [listaCriadaToast] } := by
  refine ⟨(createList_spec noListMultiState none).1 (by decide), ?_⟩
  have h := ((createList_spec sampleMultiState (some newListRow)).2
    (by decide)).2 newListRow rfl
  exact h.trans (by decide)

/-- Claim C8: `deleteList` always issues the item delete scoped to the
list's identifier before the delete of the list row, and when the checked
list-row delete succeeds while the deleted list is the active one, the
active-list identifier is cleared and the local items sequence emptied. -/
theorem deleteList_spec (s : Multi.State) (id : String) (ok : Bool) :
    (Multi.deleteList s id ok).calls =
      [Multi.RemoteCall.deleteItemsByListId id, Multi.RemoteCall.deleteListById id] ∧
    (ok = true → s.currentListId = some id →
      (Multi.deleteList s id ok).state.currentListId = none ∧
      (Multi.deleteList s id ok).state.items = []) := by
  constructor
  · cases ok with
    | true => by_cases h : s.currentListId = some id <;> simp [Multi.deleteList, h]
    | false => simp [Multi.deleteList]
  · intro hok hcur
    subst hok
    simp [Multi.deleteList, hcur]

theorem deleteList_spec_witness :
    (Multi.deleteList sampleMultiState "L1" true).calls =
      [Multi.RemoteCall.deleteItemsByListId "L1",
       Multi.RemoteCall.deleteListById "L1"] ∧
    (Multi.deleteList sampleMultiState "L1" true).state.currentListId = none ∧
    (Multi.deleteList sampleMultiState "L1" true).state.items = [] := by
  have h := deleteList_spec sampleMultiState "L1" true
  exact ⟨h.1, h.2 rfl rfl⟩

/-- Claim C9: every fetch that fails with a remote error emits the localized
error notification and leaves the previously held sequences (and every
other state field) unchanged, except that the fetches with a `finally`
block clear the loading flag: `fetchItems` of the single-list variant and
`fetchLists` of the multi-list variant clear it, while `fetchItems` of the
multi-list variant changes no state at all.  No mutating remote call is
issued. -/
theorem fetch_error_spec (s₁ : Single.State) (s₂ : Multi.State) :
    Single.fetchItems s₁ (Except.error ()) =
      { calls := [], state := { s₁ with loading := false },
        toasts := [erroCarregarItensToast] } ∧
    Multi.fetchLists s₂ (Except.error ()) =
      { calls := [], state := { s₂ with loading := false },
        toasts := [erroCarregarListasToast] } ∧
    (¬ s₂.currentListId = none →
      Multi.fetchItems s₂ (Except.error ()) =
        { calls := [], state := s₂, toasts := [erroCarregarItensToast] }) := by
  refine ⟨rfl, rfl, ?_⟩
  intro h
  cases hcur : s₂.currentListId with
  | none => exact absurd hcur h
  | some lid => simp [Multi.fetchItems, hcur]

theorem fetch_error_spec_witness :
    Single.fetchItems sampleSingleState (Except.error ()) =
      { calls := [], state := { sampleSingleState with loading := false },
        toasts := [erroCarregarItensToast] } ∧
    Multi.fetchItems sampleMultiState (Except.error ()) =
      { calls := [], state := sampleMultiState,
        toasts := [erroCarregarItensToast] } := by
  have h := fetch_error_spec sampleSingleState sampleMultiState
  exact ⟨h.1, h.2.2 (by decide)⟩
